import Mathlib

/-!
Verification development for the Arkestra conversational-agent service.

Each definition is a shallow embedding of the corresponding Python function,
named after its source where Lean allows it.  External collaborators (the
tokenizer behind `count_tokens`, `json.dumps`, the SQLite store, the two
model roles, the tool registry) enter as explicit function parameters, so
every definition stays executable.  Machine floats of the source are
modelled as exact rationals; Python `round` (banker's rounding) is modelled
by `pyRound`.
-/

namespace Arkestra

/-! ## Token-budget allocator — `app/core/budget.py`

`count_tokens` (app/core/tokens.py) delegates to the external `tiktoken`
encoder, with `len(text)` as the offline fallback; it is a parameter
`tok : String → ℕ` here.  `json.dumps` is likewise a parameter `dumps`.
The metadata dict is an abstract type `μ` with its emptiness test
(Python truthiness of the dict) passed in as `jmNonempty`. -/

/-- Persisted chat message as seen by the allocator: a dict with
`role` and `text` keys (budget.py line 25 reads exactly these two). -/
structure Msg where
  role : String
  text : String
deriving DecidableEq

/-- Cost of one history message: `count_tokens(f"{role}:{text}")`. -/
def msgTokens (tok : String → ℕ) (m : Msg) : ℕ :=
  tok (m.role ++ ":" ++ m.text)

/-- Retrieved snippet; `trim` only ever reads its `text` key. -/
structure RagDoc where
  id : String
  text : String
deriving DecidableEq

/-- History cap of budget.py lines 18-19:
`history_cap = max_tokens - 128 if max_tokens > 128 else max_tokens`
then `history_cap = max(300, min(600, history_cap))`. -/
def historyCap (max_tokens : ℤ) : ℤ :=
  max 300 (min 600 (if 128 < max_tokens then max_tokens - 128 else max_tokens))

/-- The `for message in reversed(history)` loop of budget.py lines 24-35.
The argument list is the reversed history; `sel` accumulates the kept
messages (Python inserts at index 0, so prepending here builds the same
list) and `used` the accumulated token cost. -/
def packLoop (tok : String → ℕ) (cap : ℤ) (minM maxM : ℕ) :
    List Msg → List Msg → ℕ → List Msg × ℕ
  | [], sel, used => (sel, used)
  | m :: rest, sel, used =>
    if sel ≠ [] ∧ maxM ≤ sel.length then (sel, used)
    else if sel ≠ [] ∧ minM ≤ sel.length ∧ cap < (used : ℤ) + msgTokens tok m then (sel, used)
    else packLoop tok cap minM maxM rest (m :: sel) (used + msgTokens tok m)

/-- History packing phase of `trim`: `min_messages = min(10, len(history))`,
`max_messages = 16`, walking the history newest → oldest.  Returns the kept
messages (in original order) and the tokens used. -/
def packHistory (tok : String → ℕ) (history : List Msg) (max_tokens : ℤ) : List Msg × ℕ :=
  packLoop tok (historyCap max_tokens) (min 10 history.length) 16 history.reverse [] 0

/-- The RAG loop of budget.py lines 51-56: greedy inclusion in the given
order, stopping at the first snippet that does not fit. -/
def ragLoop (tok : String → ℕ) : ℤ → List RagDoc → List RagDoc
  | _, [] => []
  | remaining, d :: ds =>
    if remaining < (tok d.text : ℤ) then []
    else d :: ragLoop tok (remaining - tok d.text) ds

/-- Result bundle of `trim` (the `out` dict). -/
structure TrimOut (μ : Type) where
  history : List Msg
  rag_hits : List RagDoc
  junior_meta : μ
deriving DecidableEq

/-- Shallow embedding of `trim(history, rag_hits, junior_meta, max_tokens)`
(budget.py lines 13-61).  `jmEmpty` stands for the empty dict `{}` and
`jmNonempty` for Python truthiness of the metadata dict.  The final
`if not out["junior_meta"]` fallback of lines 58-59 re-inserts the whole
metadata whenever nothing was packed before it (`used == 0`). -/
def trim {μ : Type} (tok : String → ℕ) (dumps : μ → String) (jmEmpty : μ)
    (jmNonempty : μ → Bool) (history : List Msg) (rag_hits : List RagDoc)
    (junior_meta : μ) (max_tokens : ℤ) : TrimOut μ :=
  let packed := packHistory tok history max_tokens
  let used0 := packed.2
  let remaining1 : ℤ := if (used0 : ℤ) < max_tokens then max_tokens - used0 else 0
  let step2 : μ × ℕ :=
    if 0 < remaining1 ∧ jmNonempty junior_meta = true then
      if (tok (dumps junior_meta) : ℤ) ≤ remaining1 then
        (junior_meta, used0 + tok (dumps junior_meta))
      else (jmEmpty, used0)
    else (jmEmpty, used0)
  let used1 := step2.2
  let remaining2 : ℤ := if (used1 : ℤ) < max_tokens then max_tokens - used1 else 0
  if remaining2 ≤ 0 then ⟨packed.1, [], step2.1⟩
  else
    let rag := ragLoop tok remaining2 rag_hits
    let jmFinal :=
      if jmNonempty step2.1 = false then
        if jmNonempty junior_meta = true ∧ used1 = 0 then junior_meta else step2.1
      else step2.1
    ⟨packed.1, rag, jmFinal⟩

/-- Total estimated cost of a list of history messages
(`count_struct` of app/core/tokens.py). -/
def histCost (tok : String → ℕ) (l : List Msg) : ℕ :=
  (l.map (msgTokens tok)).sum

/-- The packing loop never stops before `minM` messages are kept
(provided `minM ≤ maxM`): each break condition requires at least
`minM`, respectively `maxM`, messages already selected. -/
theorem packLoop_length_ge (tok : String → ℕ) (cap : ℤ) (minM maxM : ℕ) (hmm : minM ≤ maxM) :
    ∀ (l sel : List Msg) (used : ℕ),
      min minM (sel.length + l.length) ≤ (packLoop tok cap minM maxM l sel used).1.length := by
  intro l
  induction l with
  | nil =>
    intro sel used
    simp only [packLoop, List.length_nil]
    omega
  | cons m rest ih =>
    intro sel used
    simp only [packLoop, List.length_cons]
    split
    · rename_i h
      obtain ⟨-, h2⟩ := h
      dsimp only
      omega
    · split
      · rename_i h
        obtain ⟨-, h2, -⟩ := h
        dsimp only
        omega
      · have h3 := ih (m :: sel) (used + msgTokens tok m)
        simp only [List.length_cons] at h3
        omega

/-- The packing loop only ever prepends a reversed initial segment of
its (reversed) input list onto the accumulator. -/
theorem packLoop_take (tok : String → ℕ) (cap : ℤ) (minM maxM : ℕ) :
    ∀ (l sel : List Msg) (used : ℕ),
      ∃ j, (packLoop tok cap minM maxM l sel used).1 = (l.take j).reverse ++ sel := by
  intro l
  induction l with
  | nil =>
    intro sel used
    exact ⟨0, by simp [packLoop]⟩
  | cons m rest ih =>
    intro sel used
    simp only [packLoop]
    split
    · exact ⟨0, by simp⟩
    · split
      · exact ⟨0, by simp⟩
      · obtain ⟨j, hj⟩ := ih (m :: sel) (used + msgTokens tok m)
        refine ⟨j + 1, ?_⟩
        rw [List.take_succ_cons, List.reverse_cons, List.append_assoc, List.singleton_append]
        exact hj

/-- Every branch of `trim` returns the history produced by the packing
phase unchanged. -/
theorem trim_history_eq {μ : Type} (tok : String → ℕ) (dumps : μ → String) (jmEmpty : μ)
    (jmNonempty : μ → Bool) (history : List Msg) (rag_hits : List RagDoc)
    (junior_meta : μ) (max_tokens : ℤ) :
    (trim tok dumps jmEmpty jmNonempty history rag_hits junior_meta max_tokens).history
      = (packHistory tok history max_tokens).1 := by
  simp only [trim]
  split_ifs <;> rfl

/-- C10: for every input, the history component of `trim`'s output is a
contiguous suffix of the input history list (`history.drop n` for some `n`):
the walk newest → oldest with prepends can neither reorder messages nor
drop one from the middle while keeping an older one. -/
theorem trim_history_suffix_c10 {μ : Type} (tok : String → ℕ) (dumps : μ → String)
    (jmEmpty : μ) (jmNonempty : μ → Bool) (history : List Msg) (rag_hits : List RagDoc)
    (junior_meta : μ) (max_tokens : ℤ) :
    ∃ n, (trim tok dumps jmEmpty jmNonempty history rag_hits junior_meta max_tokens).history
        = history.drop n := by
  rw [trim_history_eq]
  obtain ⟨j, hj⟩ :=
    packLoop_take tok (historyCap max_tokens) (min 10 history.length) 16 history.reverse [] 0
  refine ⟨history.length - j, ?_⟩
  rw [packHistory, hj, List.append_nil, ← List.rtake_eq_reverse_take_reverse, List.rtake]

/-- Token estimator used in concrete evaluations: the offline fallback of
`count_tokens` (app/core/tokens.py line 16), `len(text)`. -/
def demoTok (s : String) : ℕ := s.length

/-- A history message whose cost (48 tokens) far exceeds the per-message
share of a 300-token budget split over 10 messages. -/
def demoMsg : Msg := ⟨"user", "aaaaaaaaaaaaaaaaaaaaaaaaaaaaaaaaaaaaaaaaaaa"⟩

/-- Twenty identical oversized history messages. -/
def demoHistory : List Msg := List.replicate 20 demoMsg

/-- C8: `trim` never returns fewer than `min 10 (length history)` history
messages; in particular on 20 messages of 48 tokens each with
`max_tokens = 300` it returns exactly 10 messages whose total cost 480
exceeds 300. -/
theorem trim_min_history_c8 :
    (∀ (μ : Type) (tok : String → ℕ) (dumps : μ → String) (jmEmpty : μ)
        (jmNonempty : μ → Bool) (history : List Msg) (rag_hits : List RagDoc)
        (junior_meta : μ) (max_tokens : ℤ),
        min 10 history.length
          ≤ (trim tok dumps jmEmpty jmNonempty history rag_hits junior_meta
              max_tokens).history.length)
    ∧ (trim demoTok (fun _ : List (String × String) => "") [] (fun l => !l.isEmpty)
          demoHistory [] [] 300).history.length = 10
    ∧ 300 < histCost demoTok (trim demoTok (fun _ : List (String × String) => "") []
          (fun l => !l.isEmpty) demoHistory [] [] 300).history := by
  refine ⟨?_, by decide, by decide⟩
  intro μ tok dumps jmEmpty jmNonempty history rag_hits junior_meta max_tokens
  rw [trim_history_eq, packHistory]
  have h := packLoop_length_ge tok (historyCap max_tokens) (min 10 history.length) 16
    (by omega) history.reverse [] 0
  simp only [List.length_reverse, List.length_nil] at h
  omega

/-- C4 amended: the metadata component of `trim`'s output is always either
the whole input metadata or empty (never partially truncated); it is the
whole input only when its serialized cost fits the budget remaining after
history packing, or (the exception budget.py lines 58-59 introduce) when
history packing consumed zero tokens, in which case nonempty metadata is
re-inserted even though it exceeds the budget. -/
theorem trim_meta_atomic_c4 {μ : Type} (tok : String → ℕ) (dumps : μ → String)
    (jmEmpty : μ) (jmNonempty : μ → Bool) (history : List Msg) (rag_hits : List RagDoc)
    (junior_meta : μ) (max_tokens : ℤ) :
    (trim tok dumps jmEmpty jmNonempty history rag_hits junior_meta max_tokens).junior_meta
        = jmEmpty
    ∨ ((trim tok dumps jmEmpty jmNonempty history rag_hits junior_meta
          max_tokens).junior_meta = junior_meta
        ∧ ((tok (dumps junior_meta) : ℤ)
              ≤ max_tokens - ((packHistory tok history max_tokens).2 : ℤ)
            ∨ (packHistory tok history max_tokens).2 = 0)) := by
  simp only [trim]
  split_ifs <;>
    first
      | exact Or.inl rfl
      | exact Or.inr ⟨rfl, Or.inl (by assumption)⟩
      | exact Or.inr ⟨rfl, Or.inr (by simp_all)⟩

/-- A nonempty metadata dict. -/
def demoMeta : List (String × String) := [("k", "v")]

/-- A serializer whose output costs 200 tokens — twice the demo budget. -/
def demoDumps : List (String × String) → String := fun _ => String.mk (List.replicate 200 'x')

set_option maxRecDepth 4000 in
/-- C4 counterexample: with an empty history (so history packing uses zero
tokens), a 100-token budget and metadata serializing to 200 tokens, `trim`
returns the whole metadata even though its cost exceeds the entire budget,
because of the `used == 0` fallback of budget.py lines 58-59. -/
theorem trim_meta_over_budget_c4 :
    (trim demoTok demoDumps [] (fun l => !l.isEmpty) [] [] demoMeta 100).junior_meta = demoMeta
    ∧ (100 : ℤ) < (demoTok (demoDumps demoMeta) : ℤ) := by
  constructor
  · decide
  · decide

/-! ## Affect engine — `app/core/neuro.py`

Levels live in a module-global dict over the ten `_NEUROTRANSMITTERS`
names, modelled as a total function `Channel → ℤ` inside `NeuroState`.
Python floats are modelled as exact rationals and Python `round`
(round-half-to-even) as `pyRound`. -/

/-- The ten affect channels of `_NEUROTRANSMITTERS` (neuro.py lines 28-39). -/
inductive Channel
  | dopamine
  | serotonin
  | norepinephrine
  | acetylcholine
  | gaba
  | glutamate
  | endorphins
  | oxytocin
  | vasopressin
  | histamine
deriving DecidableEq

/-- Python `round` on a real-valued argument: round half to even. -/
def pyRound (q : ℚ) : ℤ :=
  let f := ⌊q⌋
  let r := q - (f : ℚ)
  if r < 1 / 2 then f
  else if 1 / 2 < r then f + 1
  else if f % 2 = 0 then f else f + 1

/-- `_clamp_level(value) = max(0, min(11, int(round(float(value)))))`
(neuro.py lines 48-51). -/
def clampLevel (v : ℚ) : ℤ := max 0 (min 11 (pyRound v))

/-- The module state: `_BASELINE` and `_LEVELS` (both hold every channel). -/
structure NeuroState where
  baseline : Channel → ℤ
  levels : Channel → ℤ

/-- Baseline built by `_ensure_persona_loaded` (neuro.py lines 72-79): raw
config values are clamped, missing channels default to 0.  The raw persona
config is a parameter. -/
def mkBaseline (raw : Channel → Option ℚ) : Channel → ℤ := fun c =>
  match raw c with
  | some v => clampLevel v
  | none => 0

/-- Initial module state: `_LEVELS = dict(_BASELINE)` (neuro.py line 81). -/
def initState (raw : Channel → Option ℚ) : NeuroState :=
  ⟨mkBaseline raw, mkBaseline raw⟩

/-- `set_levels` (neuro.py lines 117-123): overwrite the provided channels,
clamped; keys that are not channel names are ignored (the partial map
argument models the dict after that name filter). -/
def set_levels (upd : Channel → Option ℚ) (s : NeuroState) : NeuroState :=
  ⟨s.baseline, fun c =>
    match upd c with
    | some v => clampLevel v
    | none => s.levels c⟩

/-- `apply_delta` (neuro.py lines 126-133): additive adjustment, clamped. -/
def apply_delta (upd : Channel → Option ℚ) (s : NeuroState) : NeuroState :=
  ⟨s.baseline, fun c =>
    match upd c with
    | some d => clampLevel ((s.levels c : ℚ) + d)
    | none => s.levels c⟩

/-- `sleep_reset` (neuro.py lines 136-140): `_LEVELS.update(_BASELINE)`;
the baseline holds every channel, so the levels become the baseline. -/
def sleep_reset (s : NeuroState) : NeuroState :=
  ⟨s.baseline, s.baseline⟩

/-- `decay_step` (neuro.py lines 143-155): no-op for `rate ≤ 0`, otherwise
each level moves by `(baseline - current) * rate`, rounded and clamped
(`_clamp_level(round(...))`; the inner `round` and the one inside
`_clamp_level` coincide on the already-integral value). -/
def decay_step (rate : ℚ) (s : NeuroState) : NeuroState :=
  if rate ≤ 0 then s
  else
    ⟨s.baseline, fun c =>
      clampLevel ((s.levels c : ℚ) + ((s.baseline c : ℚ) - (s.levels c : ℚ)) * rate)⟩

/-- One affect operation, as listed in the spec and exported by neuro.py. -/
inductive NeuroOp
  | setOp (upd : Channel → Option ℚ)
  | deltaOp (upd : Channel → Option ℚ)
  | decayOp (rate : ℚ)
  | resetOp

/-- Apply one operation to the module state. -/
def applyOp : NeuroOp → NeuroState → NeuroState
  | .setOp upd, s => set_levels upd s
  | .deltaOp upd, s => apply_delta upd s
  | .decayOp rate, s => decay_step rate s
  | .resetOp, s => sleep_reset s

/-- Apply a finite sequence of operations in order. -/
def applyOps (ops : List NeuroOp) (s : NeuroState) : NeuroState :=
  ops.foldl (fun s op => applyOp op s) s

/-- Clamped values always lie in `[0, 11]`. -/
theorem clampLevel_mem (v : ℚ) : 0 ≤ clampLevel v ∧ clampLevel v ≤ 11 := by
  unfold clampLevel
  constructor
  · exact le_max_left 0 _
  · exact max_le (by norm_num) (min_le_left 11 _)

/-- Both vectors of the state in range. -/
def StateInRange (s : NeuroState) : Prop :=
  (∀ c, 0 ≤ s.baseline c ∧ s.baseline c ≤ 11) ∧ ∀ c, 0 ≤ s.levels c ∧ s.levels c ≤ 11

/-- Every single operation preserves the range invariant. -/
theorem applyOp_preserves (op : NeuroOp) (s : NeuroState) (h : StateInRange s) :
    StateInRange (applyOp op s) := by
  obtain ⟨hb, hl⟩ := h
  cases op with
  | setOp upd =>
    refine ⟨hb, fun c => ?_⟩
    simp only [applyOp, set_levels]
    cases upd c with
    | some v => exact clampLevel_mem v
    | none => exact hl c
  | deltaOp upd =>
    refine ⟨hb, fun c => ?_⟩
    simp only [applyOp, apply_delta]
    cases upd c with
    | some v => exact clampLevel_mem _
    | none => exact hl c
  | decayOp rate =>
    simp only [applyOp, decay_step]
    split
    · exact ⟨hb, hl⟩
    · exact ⟨hb, fun c => clampLevel_mem _⟩
  | resetOp => exact ⟨hb, hb⟩

/-- Sequences of operations preserve the range invariant. -/
theorem applyOps_preserves (ops : List NeuroOp) (s : NeuroState) (h : StateInRange s) :
    StateInRange (applyOps ops s) := by
  induction ops generalizing s with
  | nil => exact h
  | cons op rest ih =>
    simp only [applyOps, List.foldl_cons] at *
    exact ih _ (applyOp_preserves op s h)

/-- C5: starting from the loaded persona state, any finite sequence of
`set_levels`, `apply_delta`, `decay_step`, `sleep_reset` with arbitrary
rational inputs leaves every channel level an integer within `[0, 11]`. -/
theorem neuro_levels_bounded_c5 (raw : Channel → Option ℚ) (ops : List NeuroOp) (c : Channel) :
    0 ≤ (applyOps ops (initState raw)).levels c
    ∧ (applyOps ops (initState raw)).levels c ≤ 11 := by
  have hinit : StateInRange (initState raw) := by
    constructor <;>
      · intro ch
        simp only [initState, mkBaseline]
        cases raw ch with
        | some v => exact clampLevel_mem v
        | none => exact ⟨le_refl 0, by norm_num⟩
  exact (applyOps_preserves ops (initState raw) hinit).2 c

/-- The `_STYLE_BASELINE` bias map read from `config/persona.yaml`
(neuro.py lines 83-102); `structure` is a Lean keyword, so that key is the
`struct` field here. -/
structure StyleBase where
  humor : ℚ
  struct : ℚ
  ask_clarify : ℚ
  brevity : ℚ
  positivity : ℚ
  warmth : ℚ
  alertness : ℚ

/-- `max(lower, min(upper, value))` — the shape of both `_clamp_float`
and the inline temperature / max-token clamps. -/
def clampQ (lo hi v : ℚ) : ℚ := max lo (min hi v)

/-- The style preset returned by `bias_to_style` (neuro.py lines 215-225). -/
structure Style where
  temperature : ℚ
  max_tokens : ℤ
  humor_bias : ℚ
  structure_bias : ℚ
  ask_clarify_bias : ℚ
  brevity_bias : ℚ
  warmth_bias : ℚ
  positivity_bias : ℚ
  alertness_bias : ℚ

/-- Per-channel ratio `level / 11.0` (neuro.py line 169). -/
def ratio (levels : Channel → ℤ) (c : Channel) : ℚ := (levels c : ℚ) / 11

/-- Shallow embedding of `bias_to_style` (neuro.py lines 164-225) over the
current levels, with the persona bias map as parameter.  Python float
arithmetic is modelled exactly over ℚ and `int(round(...))` by `pyRound`. -/
def bias_to_style (sb : StyleBase) (levels : Channel → ℤ) : Style :=
  let rDop := ratio levels .dopamine
  let rSer := ratio levels .serotonin
  let rNor := ratio levels .norepinephrine
  let rAce := ratio levels .acetylcholine
  let rGab := ratio levels .gaba
  let rGlu := ratio levels .glutamate
  let rEnd := ratio levels .endorphins
  let rOxy := ratio levels .oxytocin
  let rVas := ratio levels .vasopressin
  let rHis := ratio levels .histamine
  { temperature := clampQ (1 / 10) (13 / 10) (7 / 10 + (2 / 10) * rDop - (2 / 10) * rGab)
    max_tokens := pyRound (clampQ 128 1024 (512 + 200 * rDop - 150 * rNor - 50 * rHis))
    humor_bias := clampQ 0 1 (sb.humor + (5 / 10) * rDop)
    structure_bias := clampQ 0 1 (sb.struct + (6 / 10) * rAce + (1 / 10) * rGlu)
    ask_clarify_bias := clampQ 0 1 (sb.ask_clarify + (5 / 10) * rAce)
    brevity_bias := clampQ 0 1 (sb.brevity + (6 / 10) * rNor + (2 / 10) * rVas)
    warmth_bias := clampQ 0 1 (sb.warmth + (5 / 10) * rSer + (4 / 10) * rOxy)
    positivity_bias := clampQ 0 1 (sb.positivity + (3 / 10) * rSer + (5 / 10) * rEnd)
    alertness_bias := clampQ 0 1 (sb.alertness + (6 / 10) * rHis) }

/-- Clamping is the identity inside the bounds. -/
theorem clampQ_of_mem {lo hi v : ℚ} (h1 : lo ≤ v) (h2 : v ≤ hi) : clampQ lo hi v = v := by
  rw [clampQ, min_eq_right h2, max_eq_right h1]

/-- C9: for any in-range assignment of the other channels, the derived
temperature with dopamine at its maximum level 11 is strictly greater than
with dopamine at its minimum level 0: the `[0.1, 1.3]` clamp never absorbs
the `+0.2` dopamine contribution because the unclamped value stays within
`[0.5, 0.9]`. -/
theorem temperature_dopamine_strict_c9 (sb : StyleBase) (lv : Channel → ℤ)
    (h : ∀ c, 0 ≤ lv c ∧ lv c ≤ 11) :
    (bias_to_style sb (Function.update lv .dopamine 0)).temperature
      < (bias_to_style sb (Function.update lv .dopamine 11)).temperature := by
  have hg0 : (0 : ℚ) ≤ (lv .gaba : ℚ) := by exact_mod_cast (h .gaba).1
  have hg11 : (lv .gaba : ℚ) ≤ 11 := by exact_mod_cast (h .gaba).2
  have hne : Channel.gaba ≠ Channel.dopamine := by decide
  simp only [bias_to_style, ratio, Function.update_same,
    Function.update_noteq hne]
  have hlo : clampQ (1 / 10) (13 / 10)
      (7 / 10 + (2 / 10) * (((0 : ℤ) : ℚ) / 11) - (2 / 10) * ((lv .gaba : ℚ) / 11))
      = 7 / 10 + (2 / 10) * (((0 : ℤ) : ℚ) / 11) - (2 / 10) * ((lv .gaba : ℚ) / 11) := by
    apply clampQ_of_mem <;> push_cast <;> nlinarith
  have hhi : clampQ (1 / 10) (13 / 10)
      (7 / 10 + (2 / 10) * (((11 : ℤ) : ℚ) / 11) - (2 / 10) * ((lv .gaba : ℚ) / 11))
      = 7 / 10 + (2 / 10) * (((11 : ℤ) : ℚ) / 11) - (2 / 10) * ((lv .gaba : ℚ) / 11) := by
    apply clampQ_of_mem <;> push_cast <;> nlinarith
  rw [hlo, hhi]
  push_cast
  nlinarith

/-- C9 witness: at the all-zero bias map and the all-zero level vector the
hypothesis holds and the strict temperature increase is realized. -/
theorem temperature_dopamine_strict_c9_witness :
    (bias_to_style ⟨0, 0, 0, 0, 0, 0, 0⟩
        (Function.update (fun _ => (0 : ℤ)) Channel.dopamine 0)).temperature
      < (bias_to_style ⟨0, 0, 0, 0, 0, 0, 0⟩
        (Function.update (fun _ => (0 : ℤ)) Channel.dopamine 11)).temperature :=
  temperature_dopamine_strict_c9 ⟨0, 0, 0, 0, 0, 0, 0⟩ (fun _ => 0)
    (fun _ => ⟨le_refl 0, by norm_num⟩)

/-! ## Bandit suggestion selector — `app/core/bandit.py`

The persistent `bandit_stats` table is a parameter
`stats : String → String → Option (ℚ × ℚ)` mapping (intent, kind) to
(wins, plays).  `pick` first draws `random.random() < EPS`; the
deterministic exploitation branch (bandit.py lines 27-35) is embedded as
`pickExploit`. -/

/-- A suggestion dict from the dispatcher: `kind` defaults to "good" and
`confidence` to 0.5 when absent (bandit.py lines 30-31). -/
structure Suggestion where
  kind : Option String
  text : Option String
  confidence : Option ℚ
deriving DecidableEq

/-- `_ctr(intent, kind)` (bandit.py lines 9-19): `wins / plays` for a
stored row (guarding `plays > 0`), Bayes starter 1/2 for unseen pairs. -/
def estimatedRate (stats : String → String → Option (ℚ × ℚ)) (intent kind : String) : ℚ :=
  match stats intent kind with
  | none => 1 / 2
  | some (w, p) => w / (if 0 < p then p else 1)

/-- Score of one candidate: `_ctr(intent, kind) * confidence`. -/
def suggestionScore (stats : String → String → Option (ℚ × ℚ)) (intent : String)
    (s : Suggestion) : ℚ :=
  estimatedRate stats intent (s.kind.getD "good") * s.confidence.getD (1 / 2)

/-- The `for s in suggestions` loop of bandit.py lines 29-34, carrying
`best` and `best_score` (initially `None` and `-1.0`); only strict
improvements replace the incumbent. -/
def pickLoop (stats : String → String → Option (ℚ × ℚ)) (intent : String) :
    List Suggestion → Option Suggestion → ℚ → Option Suggestion
  | [], best, _ => best
  | s :: rest, best, bestScore =>
    if bestScore < suggestionScore stats intent s then
      pickLoop stats intent rest (some s) (suggestionScore stats intent s)
    else pickLoop stats intent rest best bestScore

/-- Python truthiness of a suggestion dict: the empty dict `{}` is falsy;
in this record model a key is present exactly when its field is `some`. -/
def suggestionTruthy (s : Suggestion) : Bool :=
  s.kind.isSome || s.text.isSome || s.confidence.isSome

/-- Exploitation branch of `pick` (bandit.py lines 22-35 minus the ε-draw):
empty candidate list yields no selection; otherwise run the loop and
`return best or suggestions[0]` — the fallback to `suggestions[0]` fires
both when `best` stayed `None` and when the winning candidate is the
falsy empty dict. -/
def pickExploit (stats : String → String → Option (ℚ × ℚ)) (intent : String) :
    List Suggestion → Option Suggestion
  | [] => none
  | s0 :: rest =>
    match pickLoop stats intent (s0 :: rest) none (-1) with
    | some best => if suggestionTruthy best then some best else some s0
    | none => some s0

/-- Loop characterization: either nothing beats the incumbent score and
the incumbent is returned, or the result is the first candidate attaining
the maximal score above the incumbent score. -/
theorem pickLoop_spec (stats : String → String → Option (ℚ × ℚ)) (intent : String) :
    ∀ (l : List Suggestion) (best : Option Suggestion) (bs : ℚ),
      (pickLoop stats intent l best bs = best
        ∧ ∀ s ∈ l, suggestionScore stats intent s ≤ bs)
      ∨ (∃ l₁ m l₂, l = l₁ ++ m :: l₂
          ∧ pickLoop stats intent l best bs = some m
          ∧ bs < suggestionScore stats intent m
          ∧ (∀ s ∈ l₁, suggestionScore stats intent s < suggestionScore stats intent m)
          ∧ (∀ s ∈ l₂, suggestionScore stats intent s ≤ suggestionScore stats intent m)) := by
  intro l
  induction l with
  | nil =>
    intro best bs
    left
    exact ⟨rfl, by simp⟩
  | cons s rest ih =>
    intro best bs
    by_cases hcmp : bs < suggestionScore stats intent s
    · have heq : pickLoop stats intent (s :: rest) best bs
          = pickLoop stats intent rest (some s) (suggestionScore stats intent s) := by
        simp [pickLoop, hcmp]
      rcases ih (some s) (suggestionScore stats intent s) with
        ⟨h1, h2⟩ | ⟨l₁, m, l₂, hsplit, hres, hgt, hlt, hle⟩
      · right
        exact ⟨[], s, rest, by simp, by rw [heq, h1], hcmp, by simp, h2⟩
      · right
        refine ⟨s :: l₁, m, l₂, by rw [hsplit, List.cons_append], by rw [heq, hres],
          lt_trans hcmp hgt, ?_, hle⟩
        intro t ht
        rcases List.mem_cons.mp ht with h | h
        · rw [h]; exact hgt
        · exact hlt t h
    · have heq : pickLoop stats intent (s :: rest) best bs
          = pickLoop stats intent rest best bs := by
        simp [pickLoop, hcmp]
      rcases ih best bs with
        ⟨h1, h2⟩ | ⟨l₁, m, l₂, hsplit, hres, hgt, hlt, hle⟩
      · left
        refine ⟨by rw [heq, h1], ?_⟩
        intro t ht
        rcases List.mem_cons.mp ht with h | h
        · rw [h]; exact not_lt.mp hcmp
        · exact h2 t h
      · right
        refine ⟨s :: l₁, m, l₂, by rw [hsplit, List.cons_append], by rw [heq, hres], hgt, ?_, hle⟩
        intro t ht
        rcases List.mem_cons.mp ht with h | h
        · rw [h]; exact lt_of_le_of_lt (not_lt.mp hcmp) hgt
        · exact hlt t h

/-- The two demo arms of the spec scenario: ("task","good") = 1 win / 2
plays, ("task","mischief") = 9 wins / 10 plays. -/
def demoStats : String → String → Option (ℚ × ℚ) := fun intent kind =>
  if intent = "task" ∧ kind = "good" then some (1, 2)
  else if intent = "task" ∧ kind = "mischief" then some (9, 10) else none

/-- The "good" candidate of the scenario (default confidence). -/
def demoGood : Suggestion := ⟨some "good", some "ok", none⟩

/-- The "mischief" candidate of the scenario (default confidence). -/
def demoMis : Suggestion := ⟨some "mischief", some "fun", none⟩

/-- Score of the "good" demo candidate: `(1/2) * (1/2) = 1/4`. -/
theorem demoGood_score : suggestionScore demoStats "task" demoGood = 1 / 4 := by
  have h : demoStats "task" "good" = some (1, 2) := rfl
  norm_num [suggestionScore, estimatedRate, demoGood, h]

/-- Score of the "mischief" demo candidate: `(9/10) * (1/2) = 9/20`. -/
theorem demoMis_score : suggestionScore demoStats "task" demoMis = 9 / 20 := by
  have h : demoStats "task" "mischief" = some (9, 10) := rfl
  norm_num [suggestionScore, estimatedRate, demoMis, h]

/-- C6 amended: when every candidate is a nonempty dict and scores
strictly above the `-1.0` sentinel (in particular whenever confidences are
nonnegative), the exploitation branch returns the earliest candidate of
maximal `estimated_rate × confidence`; and on the spec's concrete arms it
deterministically returns the mischief candidate. -/
theorem pick_argmax_c6 :
    (∀ (stats : String → String → Option (ℚ × ℚ)) (intent : String)
        (sugg : List Suggestion),
        sugg ≠ [] →
        (∀ s ∈ sugg, suggestionTruthy s = true) →
        (∀ s ∈ sugg, -1 < suggestionScore stats intent s) →
        ∃ l₁ m l₂, sugg = l₁ ++ m :: l₂
          ∧ pickExploit stats intent sugg = some m
          ∧ (∀ s ∈ l₁, suggestionScore stats intent s < suggestionScore stats intent m)
          ∧ (∀ s ∈ sugg, suggestionScore stats intent s ≤ suggestionScore stats intent m))
    ∧ pickExploit demoStats "task" [demoGood, demoMis] = some demoMis := by
  constructor
  · intro stats intent sugg hne htr hpos
    obtain ⟨s0, tail, rfl⟩ : ∃ s0 tail, sugg = s0 :: tail := by
      cases sugg with
      | nil => exact absurd rfl hne
      | cons a b => exact ⟨a, b, rfl⟩
    rcases pickLoop_spec stats intent (s0 :: tail) none (-1) with
      ⟨h1, h2⟩ | ⟨l₁, m, l₂, hsplit, hres, hgt, hlt, hle⟩
    · exact absurd (h2 s0 (List.mem_cons_self s0 tail))
        (not_le.mpr (hpos s0 (List.mem_cons_self s0 tail)))
    · have hmem : m ∈ s0 :: tail := by
        rw [hsplit]
        exact List.mem_append.mpr (Or.inr (List.mem_cons_self m l₂))
      refine ⟨l₁, m, l₂, hsplit, ?_, hlt, ?_⟩
      · simp [pickExploit, hres, htr m hmem]
      · intro t ht
        rw [hsplit] at ht
        rcases List.mem_append.mp ht with h | h
        · exact le_of_lt (hlt t h)
        · rcases List.mem_cons.mp h with h | h
          · rw [h]
          · exact hle t h
  · have hloop : pickLoop demoStats "task" [demoGood, demoMis] none (-1) = some demoMis := by
      simp only [pickLoop]
      rw [if_pos (by rw [demoGood_score]; norm_num),
        if_pos (by rw [demoGood_score, demoMis_score]; norm_num)]
    have htm : suggestionTruthy demoMis = true := rfl
    simp [pickExploit, hloop, htm]

/-- C6 counterexample: with unseen arms and negative confidences every
score stays at or below the `-1.0` sentinel, the loop keeps `best = None`
and `pick` falls back to `suggestions[0]` — which here scores strictly
less than the other candidate, so the selection is not the maximizer. -/
theorem pick_not_argmax_c6 :
    pickExploit (fun _ _ => none) "task"
        [⟨some "a", none, some (-4)⟩, ⟨some "b", none, some (-2)⟩]
      = some ⟨some "a", none, some (-4)⟩
    ∧ suggestionScore (fun _ _ => none) "task" ⟨some "a", none, some (-4)⟩
        < suggestionScore (fun _ _ => none) "task" ⟨some "b", none, some (-2)⟩ := by
  have hA : suggestionScore (fun _ _ => none) "task" ⟨some "a", none, some (-4)⟩ = -2 := by
    norm_num [suggestionScore, estimatedRate]
  have hB : suggestionScore (fun _ _ => none) "task" ⟨some "b", none, some (-2)⟩ = -1 := by
    norm_num [suggestionScore, estimatedRate]
  constructor
  · have hloop : pickLoop (fun _ _ => none) "task"
        [⟨some "a", none, some (-4)⟩, ⟨some "b", none, some (-2)⟩] none (-1) = none := by
      simp only [pickLoop]
      rw [if_neg (by rw [hA]; norm_num), if_neg (by rw [hB]; norm_num)]
    simp [pickExploit, hloop]
  · rw [hA, hB]
    norm_num

/-- C6 witness: the general part of `pick_argmax_c6` instantiated at the
spec's concrete arms and candidates, with both hypotheses discharged. -/
theorem pick_argmax_c6_witness :
    ([demoGood, demoMis] ≠ ([] : List Suggestion))
    ∧ (∀ s ∈ [demoGood, demoMis], suggestionTruthy s = true)
    ∧ (∃ l₁ m l₂, [demoGood, demoMis] = l₁ ++ m :: l₂
        ∧ pickExploit demoStats "task" [demoGood, demoMis] = some m
        ∧ (∀ s ∈ l₁,
            suggestionScore demoStats "task" s < suggestionScore demoStats "task" m)
        ∧ (∀ s ∈ [demoGood, demoMis],
            suggestionScore demoStats "task" s ≤ suggestionScore demoStats "task" m)) :=
  ⟨by decide, by decide,
    pick_argmax_c6.1 demoStats "task" [demoGood, demoMis] (by decide) (by decide) (by
      intro s hs
      rcases List.mem_cons.mp hs with h | h
      · rw [h, demoGood_score]; norm_num
      · rw [List.mem_singleton.mp h, demoMis_score]; norm_num)⟩

/-! ## Bandit arm persistence — `app/memory/db.py`

One `bandit_stats` row, keyed by (intent, kind).  The schema default is
wins = 1, plays = 2 (db.py lines 56-61); `bandit.update` (bandit.py lines
38-44) feeds `upsert_bandit` with `wins_delta = 1 if reward > 0 else 0`
and `plays_delta = 1`; `decay_bandit` (db.py lines 139-141) multiplies
both counters by the decay factor. -/

/-- A persistent bandit arm row: (wins, plays) as SQLite REALs. -/
structure BanditArm where
  wins : ℚ
  plays : ℚ
deriving DecidableEq

/-- The prior row for an unseen (intent, kind) pair. -/
def banditPrior : BanditArm := ⟨1, 2⟩

/-- `upsert_bandit` on an existing row (db.py lines 129-133). -/
def upsert_bandit (a : BanditArm) (wins_delta plays_delta : ℚ) : BanditArm :=
  ⟨a.wins + wins_delta, a.plays + plays_delta⟩

/-- `bandit.update(intent, kind, reward)`: increment plays always, wins
only for positive reward. -/
def banditUpdate (reward : ℤ) (a : BanditArm) : BanditArm :=
  upsert_bandit a (if 0 < reward then 1 else 0) 1

/-- `decay_bandit(factor)`: `wins = wins * factor, plays = plays * factor`. -/
def decay_bandit (factor : ℚ) (a : BanditArm) : BanditArm :=
  ⟨a.wins * factor, a.plays * factor⟩

/-- One operation on an arm: an outcome update or a scheduled decay. -/
inductive ArmOp
  | outcome (reward : ℤ)
  | decay (factor : ℚ)

/-- Apply one arm operation. -/
def applyArmOp : ArmOp → BanditArm → BanditArm
  | .outcome reward, a => banditUpdate reward a
  | .decay factor, a => decay_bandit factor a

/-- The operations the claim ranges over: rewards in `{-1, +1}` and decay
factors in `(0, 1]`. -/
def ValidArmOp : ArmOp → Prop
  | .outcome reward => reward = 1 ∨ reward = -1
  | .decay factor => 0 < factor ∧ factor ≤ 1

/-- The per-arm invariant `plays ≥ wins ≥ 0`. -/
def ArmInv (a : BanditArm) : Prop := 0 ≤ a.wins ∧ a.wins ≤ a.plays

/-- Each valid operation preserves the arm invariant. -/
theorem applyArmOp_preserves (op : ArmOp) (a : BanditArm)
    (hop : ValidArmOp op) (h : ArmInv a) : ArmInv (applyArmOp op a) := by
  obtain ⟨h0, h1⟩ := h
  cases op with
  | outcome reward =>
    simp only [applyArmOp, banditUpdate, upsert_bandit, ArmInv]
    constructor
    · split <;> linarith
    · split <;> linarith
  | decay factor =>
    obtain ⟨hf0, -⟩ := hop
    simp only [applyArmOp, decay_bandit, ArmInv]
    constructor
    · positivity
    · exact mul_le_mul_of_nonneg_right h1 (le_of_lt hf0)

/-- C7: starting from the prior (wins = 1, plays = 2), every finite
sequence of outcome updates with rewards in `{-1, +1}` and multiplicative
decays with factors in `(0, 1]` keeps the arm satisfying
`plays ≥ wins ≥ 0`. -/
theorem bandit_arm_invariant_c7 (ops : List ArmOp) (hops : ∀ op ∈ ops, ValidArmOp op) :
    0 ≤ (ops.foldl (fun a op => applyArmOp op a) banditPrior).wins
    ∧ (ops.foldl (fun a op => applyArmOp op a) banditPrior).wins
        ≤ (ops.foldl (fun a op => applyArmOp op a) banditPrior).plays := by
  have hstart : ArmInv banditPrior := by
    constructor <;> norm_num [banditPrior]
  have hall : ∀ (l : List ArmOp) (a : BanditArm), (∀ op ∈ l, ValidArmOp op) → ArmInv a →
      ArmInv (l.foldl (fun a op => applyArmOp op a) a) := by
    intro l
    induction l with
    | nil => intro a _ ha; exact ha
    | cons op rest ih =>
      intro a hv ha
      simp only [List.foldl_cons]
      exact ih _ (fun o ho => hv o (List.mem_cons_of_mem op ho))
        (applyArmOp_preserves op a (hv op (List.mem_cons_self op rest)) ha)
  exact hall ops banditPrior hops hstart

/-- C7 witness: a concrete run — one win, one daily decay by 0.995, one
loss — applied to the prior, keeps the invariant. -/
theorem bandit_arm_invariant_c7_witness :
    0 ≤ (([ArmOp.outcome 1, ArmOp.decay (995 / 1000), ArmOp.outcome (-1)].foldl
          (fun a op => applyArmOp op a) banditPrior)).wins
    ∧ (([ArmOp.outcome 1, ArmOp.decay (995 / 1000), ArmOp.outcome (-1)].foldl
          (fun a op => applyArmOp op a) banditPrior)).wins
        ≤ (([ArmOp.outcome 1, ArmOp.decay (995 / 1000), ArmOp.outcome (-1)].foldl
          (fun a op => applyArmOp op a) banditPrior)).plays :=
  bandit_arm_invariant_c7 [ArmOp.outcome 1, ArmOp.decay (995 / 1000), ArmOp.outcome (-1)]
    (by
      intro op hop
      rcases List.mem_cons.mp hop with h | h
      · rw [h]; exact Or.inl rfl
      · rcases List.mem_cons.mp h with h2 | h2
        · rw [h2]; constructor <;> norm_num
        · rw [List.mem_singleton.mp h2]; exact Or.inr rfl)

/-! ## Memory consolidation — `scripts/consolidate_sleep.py`

Timestamps are `DATETIME` strings "YYYY-MM-DD HH:MM:SS" compared
lexicographically by SQLite, which is order-isomorphic to a linear order;
they are abstracted to ℕ here, and the date-prefix extraction `ts[:10]` to
a parameter `dayOf`.  The `sleep_batches` ledger row is `SleepBatch`. -/

/-- A raw `messages` row as read by the collect query. -/
structure RawMsg where
  id : ℕ
  text : String
  ts : ℕ
deriving DecidableEq

/-- The collect query (consolidate_sleep.py line 35):
`SELECT id, text, ts FROM messages WHERE ts > ? ORDER BY ts ASC` —
note: a strict lower bound only, no upper bound at the batch's
`to_seen` watermark. -/
def collectSince (msgs : List RawMsg) (fromSeen : ℕ) : List RawMsg :=
  msgs.filter (fun m => fromSeen < m.ts)

/-- `processed` as accumulated by the summarize loop (lines 38-56): the
messages are bucketed by day and `processed += len(chunks)` for each
nonempty bucket, i.e. the count of `d`-day messages summed over the
distinct days of the collected messages. -/
def processedCount (dayOf : RawMsg → ℕ) (msgs : List RawMsg) (fromSeen : ℕ) : ℕ :=
  let collected := collectSince msgs fromSeen
  (((collected.map dayOf).dedup).map (fun d => (collected.map dayOf).count d)).sum

/-- A `sleep_batches` ledger row. -/
structure SleepBatch where
  id : String
  fromSeen : ℕ
  toSeen : ℕ
  processed : ℕ
  status : String
deriving DecidableEq

/-- `_last_batch` (consolidate_sleep.py lines 18-23): the most recent
batch with `status = 'ok'` (the ledger list is in chronological order
here), or the epoch watermark 0 when none exists. -/
def lastBatchTo (batches : List SleepBatch) : ℕ :=
  match (batches.filter (fun b => b.status = "ok")).getLast? with
  | some b => b.toSeen
  | none => 0

/-- `run_sleep_batch` (consolidate_sleep.py lines 26-70) restricted to the
ledger-visible outcome: the committed batch row with
`from = last ok batch's to`, `to = now`, and the processed count. -/
def runSleepBatch (dayOf : RawMsg → ℕ) (msgs : List RawMsg) (now : ℕ)
    (batches : List SleepBatch) : SleepBatch :=
  let fromSeen := lastBatchTo batches
  ⟨"batch-" ++ toString now, fromSeen, now, processedCount dayOf msgs fromSeen, "ok"⟩

/-- The bucketed processed count equals the number of collected messages. -/
theorem processedCount_eq_length (dayOf : RawMsg → ℕ) (msgs : List RawMsg) (fromSeen : ℕ) :
    processedCount dayOf msgs fromSeen = (collectSince msgs fromSeen).length := by
  unfold processedCount
  dsimp only
  set L := (collectSince msgs fromSeen).map dayOf with hL
  have h1 := List.sum_toFinset_count_eq_length L
  have h2 := List.sum_toFinset (fun a => List.count a L) (List.nodup_dedup L)
  have h3 : (L.dedup).toFinset = L.toFinset := by
    ext a
    simp
  rw [h3] at h2
  rw [← h2, h1, hL, List.length_map]

/-- C1 counterexample: a single message time-stamped 5, strictly after the
first batch's to-watermark 3, is nevertheless collected and counted by
that batch (`processed = 1`), and counted again by the next successful
batch (from = 3, to = 10) — the same message is counted by two successful
batches. -/
theorem consolidate_double_count_c1 :
    (runSleepBatch (fun m => m.ts / 100) [⟨1, "x", 5⟩] 3 []).processed = 1
    ∧ (runSleepBatch (fun m => m.ts / 100) [⟨1, "x", 5⟩] 3 []).toSeen < (5 : ℕ)
    ∧ (runSleepBatch (fun m => m.ts / 100) [⟨1, "x", 5⟩] 10
        [runSleepBatch (fun m => m.ts / 100) [⟨1, "x", 5⟩] 3 []]).processed = 1 := by
  refine ⟨by decide, by decide, by decide⟩

/-- C1 amended: the collect step reads exactly the raw messages with
timestamp strictly greater than `from_watermark`, with no upper bound at
`to_watermark` (the query lacks `ts <= ?`), and `processed_count` counts
exactly those; consequently a message stamped after `to_watermark` is
counted by this batch and again by the next successful one, and only
messages stamped at or before a batch's to-watermark are guaranteed not to
be re-collected by the following batch. -/
theorem consolidate_window_c1 :
    (∀ (dayOf : RawMsg → ℕ) (msgs : List RawMsg) (now : ℕ) (batches : List SleepBatch),
        (runSleepBatch dayOf msgs now batches).processed
          = (msgs.filter (fun m => lastBatchTo batches < m.ts)).length)
    ∧ (∀ (msgs : List RawMsg) (toSeen : ℕ) (m : RawMsg),
        m.ts ≤ toSeen → m ∉ collectSince msgs toSeen) := by
  constructor
  · intro dayOf msgs now batches
    exact processedCount_eq_length dayOf msgs (lastBatchTo batches)
  · intro msgs toSeen m hle hmem
    have := List.of_mem_filter hmem
    simp only [decide_eq_true_eq] at this
    omega

/-- C1 witness: the amended theorem applied at a concrete bounded message,
discharging the `ts ≤ to` hypothesis. -/
theorem consolidate_window_c1_witness :
    (5 : ℕ) ≤ 7 ∧ (⟨1, "x", 5⟩ : RawMsg) ∉ collectSince [⟨1, "x", 5⟩] 7 :=
  ⟨by norm_num, consolidate_window_c1.2 [⟨1, "x", 5⟩] 7 ⟨1, "x", 5⟩ (by norm_num)⟩

/-! ## Tool execution — `app/core/tools_runner.py` and orchestrator stage 6

`run_all` resolves each call's entrypoint (raising `RuntimeError` for an
unknown name) and invokes the handler; there is no per-call try/except, so
the first exception aborts the loop and discards the results accumulated
so far.  The orchestrator (orchestrator.py lines 254-263) wraps the whole
`run_all` call in one try/except that degrades to `[]`.  The registry of
name → handler is a parameter; handlers model raising by `Except.error`. -/

/-- A `tool_calls[]` entry: `{name, args}`. -/
structure ToolCall where
  name : String
  args : List (String × String)
deriving DecidableEq

/-- A `{"name": ..., "result": ...}` entry of the results list. -/
structure ToolResult where
  name : String
  result : String
deriving DecidableEq

/-- `run_all(tool_calls)` (tools_runner.py lines 5-15) over a registry
parameter standing for `_resolve_entrypoint` + `importlib` lookup:
unknown names raise, a handler exception propagates, and each success
appends `{name, result}`. -/
def runAll (registry : String → Option (List (String × String) → Except String String)) :
    List ToolCall → Except String (List ToolResult)
  | [] => .ok []
  | call :: rest =>
    match registry call.name with
    | none => .error ("Unknown tool: " ++ call.name)
    | some fn =>
      match fn call.args with
      | .error e => .error e
      | .ok res =>
        match runAll registry rest with
        | .error e => .error e
        | .ok results => .ok (⟨call.name, res⟩ :: results)

/-- Orchestrator stage 6 (orchestrator.py lines 254-263): skip when there
are no calls, otherwise run them all and degrade any exception to an
empty result list. -/
def toolsStage {E R : Type} (runTools : List ToolCall → Except E (List R))
    (tool_calls : List ToolCall) : List R :=
  if tool_calls = [] then []
  else
    match runTools tool_calls with
    | .ok results => results
    | .error _ => []

/-- A successful `run_all` returns one result per call. -/
theorem runAll_ok_length
    (registry : String → Option (List (String × String) → Except String String)) :
    ∀ (calls : List ToolCall) (results : List ToolResult),
      runAll registry calls = .ok results → results.length = calls.length := by
  intro calls
  induction calls with
  | nil =>
    intro results h
    simp only [runAll] at h
    cases h
    rfl
  | cons call rest ih =>
    intro results h
    simp only [runAll] at h
    cases hreg : registry call.name with
    | none =>
      simp only [hreg] at h
      cases h
    | some fn =>
      simp only [hreg] at h
      cases hfn : fn call.args with
      | error e =>
        simp only [hfn] at h
        cases h
      | ok res =>
        simp only [hfn] at h
        cases hrec : runAll registry rest with
        | error e =>
          simp only [hrec] at h
          cases h
        | ok rs =>
          simp only [hrec] at h
          cases h
          simp [ih rs hrec]

/-- The demo registry: tool "a" raises, tool "b" succeeds. -/
def demoRegistry : String → Option (List (String × String) → Except String String) :=
  fun name =>
    if name = "a" then some (fun _ => .error "boom")
    else if name = "b" then some (fun _ => .ok "done") else none

/-- C2 counterexample: tool "b" succeeds when run on its own, but when it
follows the failing call "a" in the same reply, the whole stage degrades
to `[]` — the remaining call's result is not returned, so calls are not
invoked independently. -/
theorem tools_not_independent_c2 :
    runAll demoRegistry [⟨"b", []⟩] = .ok [⟨"b", "done"⟩]
    ∧ toolsStage (runAll demoRegistry) [⟨"a", []⟩, ⟨"b", []⟩] = [] := by
  constructor
  · rfl
  · rfl

/-- C2 amended: the tool stage is all-or-nothing — either some call's
handler raised (or a name was unknown) and the whole stage degrades to an
empty result list, discarding even the results of calls that already
succeeded, or every call succeeded and the stage returns exactly one
result per call. -/
theorem toolsStage_all_or_nothing_c2
    (registry : String → Option (List (String × String) → Except String String))
    (calls : List ToolCall) :
    toolsStage (runAll registry) calls = []
    ∨ (runAll registry calls = .ok (toolsStage (runAll registry) calls)
        ∧ (toolsStage (runAll registry) calls).length = calls.length) := by
  by_cases hnil : calls = []
  · left
    simp [toolsStage, hnil]
  · cases hrun : runAll registry calls with
    | error e =>
      left
      simp [toolsStage, hnil, hrun]
    | ok results =>
      right
      have hstage : toolsStage (runAll registry) calls = results := by
        simp [toolsStage, hnil, hrun]
      rw [hstage]
      exact ⟨rfl, runAll_ok_length registry calls results hrun⟩

/-! ## Orchestration pipeline — `app/core/orchestrator.py`

`handle_user` runs the stages in fixed order.  The `span(...)` context
manager (app/core/logs.py lines 15-24) logs and RE-RAISES, so it adds
nothing to exception semantics.  Collaborators that can raise are modelled
as `Except E`-valued parameters bundled in `Collaborators`; the try/except
structure of the source is mirrored exactly: the junior call, the bandit
pick, the tool stage, the refine stage and the metadata writes are caught,
while `insert_message`, the env stage, `rag_search`, `get_tool_instructions`
and `sr_generate` are not.  Dynamic-typing guards (`isinstance` checks) are
vacuous in this typed model and noted where elided. -/

/-- The dispatcher's decision dict (`jr`).  `neuro_levels` models
`jr["neuro_update"]["levels"]` (both key lookups collapsed into one
`Option`); `tools_request` is only used by the dead `missing`-tools block
(orchestrator.py lines 121-130), which ends in `pass`. -/
structure Junior where
  intent : Option String
  tools_hint : List String
  tools_request : List (List (String × String))
  rag_query : Option String
  style_directive : Option String
  neuro_levels : Option (Channel → Option ℚ)
  suggestions : Option (List Suggestion)
  chosen_suggestion : Option Suggestion

/-- The executor's reply dict. -/
structure Reply where
  text : Option String
  tool_calls : List ToolCall
  memory : List String
  plan : List String

/-- Payload of the junior call (orchestrator.py lines 65-78). -/
structure JuniorPayload (B : Type) where
  history_tail : List Msg
  user_text : String
  neuro_snapshot : Channel → ℤ
  env_brief : B
  tools_catalog : List (String × String)

/-- Payload of the senior call (orchestrator.py lines 212-225 and 250);
`tool_results` is the extra key added for the refine call. -/
structure SeniorPayload (B : Type) where
  history : List Msg
  history_tail : List Msg
  user_text : String
  last_user_text : String
  rag_hits : List RagDoc
  junior_json : Option Junior
  jr_suggestions : List Suggestion
  preset : Style
  style_directive : String
  style_hint : List (String × ℚ)
  env_brief : B
  persona : String × String
  tool_instructions : List (String × String)
  tool_results : List ToolResult

/-- Everything `handle_user` calls out to, with `Except E` modelling a
possible Python exception.  `softCensor` (`soft_censor`) is pure in the
source and typed accordingly. -/
structure Collaborators (E B G : Type) where
  insertMessage : String → String → String → Except E ℕ
  ensureEnvSession : String → String → List String → Except E ℕ
  buildEnvBrief : ℕ → String → String → Except E B
  getLastMessages : String → ℕ → Except E (List Msg)
  juniorGenerate : JuniorPayload B → Except E Junior
  banditPick : String → List Suggestion → Except E (Option Suggestion)
  ragSearch : String → String → Except E (List RagDoc)
  getToolInstructions : List String → Except E (List (String × String))
  seniorGenerate : SeniorPayload B → Except E Reply
  runAllTools : List ToolCall → Except E (List ToolResult)
  seniorRefine : SeniorPayload B → Except E Reply
  softCensor : String → String × G
  setMessageMeta : ℕ → String → String → Except E Unit

/-- The response envelope returned by `handle_user`
(orchestrator.py lines 306-316). -/
structure ResponseEnvelope (G : Type) where
  text : String
  assistant_msg_id : ℕ
  bandit_kind : String
  tool_calls : List ToolCall
  tool_results : List ToolResult
  rag_hits : List RagDoc
  preset : Style
  guard_hits : G
  junior : Junior

/-- The short tools catalog of orchestrator.py lines 70-77. -/
def toolsCatalog : List (String × String) :=
  [("note.create", "сохранить заметку"),
   ("reminder.create", "создать напоминание"),
   ("tg.message.send", "отправить сообщение в TG"),
   ("messages.search_by_date", "найти сообщения по дате"),
   ("alias.add", "добавить алиас"),
   ("alias.set_primary", "сделать алиас основным")]

/-- The conservative default decision substituted when the junior call
raises (orchestrator.py lines 82-98). -/
def defaultJunior (snap : Channel → ℤ) : Junior :=
  { intent := some "ask"
    tools_hint := []
    tools_request := []
    rag_query := none
    style_directive := some "дружелюбно и коротко"
    neuro_levels := some (fun c => some ((snap c : ℚ)))
    suggestions := some
      [⟨some "good",
        some ("Привет! Я рядом и с удовольствием помогу. Расскажи, что сейчас занимает " ++
          "твои мысли, и чем я могу поддержать тебя?"), none⟩,
       ⟨some "mischief",
        some ("Эй, давай сделаем сегодня что-то необычное и весёлое! О чём мечтаешь " ++
          "прямо сейчас, может, устроим маленькое приключение?"), none⟩]
    chosen_suggestion := none }

/-- Python truthiness of an optional string (None and "" are falsy). -/
def strTruthy : Option String → Bool
  | none => false
  | some s => s != ""

/-- Python `a or b` over optional strings. -/
def orFalsy (a b : Option String) : Option String :=
  if strTruthy a then a else b

/-- Default suggestion text substituted for blank candidates
(orchestrator.py lines 192-195). -/
def fallbackSuggestionText : String :=
  "Привет! Я здесь, чтобы поддержать тебя и помочь разобраться." ++
    " Расскажи, что сейчас важно, и чем мне заняться в первую очередь?"

/-- Tail appended to too-short suggestion texts (lines 197-200). -/
def paddedTail : String :=
  " Я рядом и готова поддержать. Что сейчас кажется самым важным?"

/-- Suggestion-text normalization of lines 190-200 (`str.split()` is
approximated by splitting on single spaces and dropping empty pieces). -/
def normalizeSuggestionText (t : String) : String :=
  let tv := t.trim
  if tv = "" then fallbackSuggestionText
  else if ((tv.splitOn " ").filter (fun w => w != "")).length < 12 then tv ++ paddedTail
  else tv

/-- One entry of `limited_suggestions` (lines 201-206): kind defaulted,
text normalized, nothing else kept. -/
def normalizeSuggestion (s : Suggestion) : Suggestion :=
  ⟨some (s.kind.getD "good"), some (normalizeSuggestionText (s.text.getD "")), none⟩

/-- The `style_hint` dict of orchestrator.py lines 138-149. -/
def styleHintOf (p : Style) : List (String × ℚ) :=
  [("humor_bias", p.humor_bias), ("structure_bias", p.structure_bias),
   ("ask_clarify_bias", p.ask_clarify_bias), ("brevity_bias", p.brevity_bias),
   ("warmth_bias", p.warmth_bias), ("positivity_bias", p.positivity_bias),
   ("alertness_bias", p.alertness_bias)]

/-- The bandit-kind selection chain of orchestrator.py lines 283-297,
with Python truthiness made explicit. -/
def computeBanditKind (bandit_chosen_kind : Option String) (tool_calls : List ToolCall)
    (jr : Junior) : String :=
  let onTools : Option String := some (if tool_calls ≠ [] then "good" else "mischief")
  let bk1 := if strTruthy bandit_chosen_kind then bandit_chosen_kind else onTools
  let bk2 :=
    if (jr.suggestions.getD []) ≠ [] then
      let chosenKind :=
        match jr.chosen_suggestion with
        | some ch => ch.kind
        | none => none
      orFalsy chosenKind (orFalsy onTools (some "good"))
    else bk1
  let bk3 := if strTruthy bk2 then bk2 else orFalsy bandit_chosen_kind onTools
  if strTruthy bk3 then bk3.getD "good" else "good"

/-- Shallow embedding of `handle_user` (orchestrator.py lines 43-316).
Each uncaught collaborator failure propagates (nested `match` on the
`Except`); each caught one falls back exactly as the source does. -/
def handleUser {E B G : Type} (c : Collaborators E B G) (sb : StyleBase)
    (neuro0 : NeuroState) (tok : String → ℕ) (dumpsJunior : Option Junior → String)
    (cfgMaxNewTokens : ℤ) (persona : String × String) (user_id text channel chat_id : String)
    (participants : List String) : Except E (ResponseEnvelope G) :=
  let parts := if participants = [] then [user_id] else participants
  match c.insertMessage user_id "user" text with
  | .error e => .error e
  | .ok _ =>
  match c.ensureEnvSession channel chat_id parts with
  | .error e => .error e
  | .ok env_id =>
  match c.buildEnvBrief env_id channel chat_id with
  | .error e => .error e
  | .ok env_brief =>
  match c.getLastMessages user_id 16 with
  | .error e => .error e
  | .ok hist_tail =>
    let jr_payload : JuniorPayload B :=
      ⟨hist_tail, text, neuro0.levels, env_brief, toolsCatalog⟩
    let jr0 : Junior :=
      match c.juniorGenerate jr_payload with
      | .ok j => j
      | .error _ => defaultJunior neuro0.levels
    let bandit_intent : String :=
      match jr0.intent with
      | some i => if i = "" then "task" else i
      | none => "task"
    let pickResult : Option Suggestion × Junior :=
      match jr0.suggestions with
      | some sugg =>
        if sugg = [] then (none, jr0)
        else
          match jr0.chosen_suggestion with
          | some ch => (some ch, jr0)
          | none =>
            match c.banditPick bandit_intent sugg with
            | .ok (some ch) => (some ch, { jr0 with chosen_suggestion := some ch })
            | .ok none => (none, jr0)
            | .error _ => (none, jr0)
      | none => (none, jr0)
    let jr := pickResult.2
    let bandit_chosen_kind : Option String :=
      match jr0.suggestions with
      | some sugg =>
        if sugg = [] then none
        else
          match (match pickResult.1 with
                 | some ch => ch.kind
                 | none => none) with
          | some k => some k
          | none => some ((sugg.headD ⟨none, none, none⟩).kind.getD "good")
      | none => none
    let neuro1 :=
      match jr.neuro_levels with
      | some upd => set_levels upd neuro0
      | none => neuro0
    let preset0 := bias_to_style sb neuro1.levels
    let preset_max_tokens : ℤ :=
      if preset0.max_tokens ≤ 0 then cfgMaxNewTokens else preset0.max_tokens
    let preset : Style := { preset0 with max_tokens := preset_max_tokens }
    match c.ragSearch (jr.rag_query.getD "") (jr.intent.getD "other") with
    | .error e => .error e
    | .ok rag_hits =>
      let packed :=
        trim tok dumpsJunior none (fun o => o.isSome) hist_tail rag_hits (some jr)
          preset_max_tokens
      let limited_suggestions := ((jr.suggestions.getD []).map normalizeSuggestion).take 3
      match c.getToolInstructions jr.tools_hint with
      | .error e => .error e
      | .ok tool_instr =>
        let sr_payload : SeniorPayload B :=
          { history := packed.history
            history_tail := hist_tail
            user_text := text
            last_user_text := text
            rag_hits := packed.rag_hits
            junior_json := packed.junior_meta
            jr_suggestions := limited_suggestions
            preset := preset
            style_directive := jr.style_directive.getD ""
            style_hint := styleHintOf preset
            env_brief := env_brief
            persona := persona
            tool_instructions := tool_instr
            tool_results := [] }
        match c.seniorGenerate sr_payload with
        | .error e => .error e
        | .ok reply0 =>
          let tool_calls := reply0.tool_calls
          let tool_results := toolsStage c.runAllTools tool_calls
          let reply : Reply :=
            if tool_results = [] then reply0
            else
              match c.seniorRefine { sr_payload with tool_results := tool_results } with
              | .ok refined =>
                if strTruthy refined.text then { reply0 with text := refined.text }
                else reply0
              | .error _ => reply0
          let censored := c.softCensor (reply.text.getD "")
          match c.insertMessage user_id "assistant" censored.1 with
          | .error e => .error e
          | .ok assistant_msg_id =>
            let bandit_kind := computeBanditKind bandit_chosen_kind tool_calls jr
            let _meta1 := c.setMessageMeta assistant_msg_id "last_intent" bandit_intent
            let _meta2 :=
              if bandit_kind != "" then
                c.setMessageMeta assistant_msg_id "last_kind" bandit_kind
              else .ok ()
            .ok
              { text := censored.1
                assistant_msg_id := assistant_msg_id
                bandit_kind := bandit_kind
                tool_calls := tool_calls
                tool_results := tool_results
                rag_hits := rag_hits
                preset := preset
                guard_hits := censored.2
                junior := jr }

/-- C3: if the early persistence and environment stages succeed and the
retrieval collaborator raises, `handle_user` propagates the exception to
its caller — orchestrator.py lines 163-167 have no try/except around
`rag_search` (and `span` re-raises), so no response envelope is produced,
contradicting the intended non-fatal retrieval of the spec. -/
theorem rag_error_propagates_c3 {E B G : Type} (c : Collaborators E B G) (sb : StyleBase)
    (neuro0 : NeuroState) (tok : String → ℕ) (dumpsJunior : Option Junior → String)
    (cfgMaxNewTokens : ℤ) (persona : String × String)
    (user_id text channel chat_id : String) (participants : List String)
    (m0 env_id : ℕ) (brief : B) (hist : List Msg) (e : E)
    (hins : c.insertMessage user_id "user" text = .ok m0)
    (henv : c.ensureEnvSession channel chat_id
      (if participants = [] then [user_id] else participants) = .ok env_id)
    (hbrief : c.buildEnvBrief env_id channel chat_id = .ok brief)
    (hhist : c.getLastMessages user_id 16 = .ok hist)
    (hrag : ∀ q i, c.ragSearch q i = .error e) :
    handleUser c sb neuro0 tok dumpsJunior cfgMaxNewTokens persona user_id text channel
      chat_id participants = .error e := by
  simp only [handleUser, hins, henv, hbrief, hhist, hrag]

/-- Collaborators for the C3 witness: every stage succeeds except
retrieval, which always raises "boom". -/
def demoCollab : Collaborators String Unit Unit :=
  { insertMessage := fun _ _ _ => .ok 1
    ensureEnvSession := fun _ _ _ => .ok 1
    buildEnvBrief := fun _ _ _ => .ok ()
    getLastMessages := fun _ _ => .ok []
    juniorGenerate := fun _ => .error "junior down"
    banditPick := fun _ _ => .ok none
    ragSearch := fun _ _ => .error "boom"
    getToolInstructions := fun _ => .ok []
    seniorGenerate := fun _ => .ok ⟨some "hi", [], [], []⟩
    runAllTools := fun _ => .ok []
    seniorRefine := fun _ => .ok ⟨some "hi", [], [], []⟩
    softCensor := fun t => (t, ())
    setMessageMeta := fun _ _ _ => .ok () }

/-- C3 witness: on the concrete collaborators the whole turn returns the
retrieval exception instead of an envelope. -/
theorem rag_error_propagates_c3_witness :
    handleUser demoCollab ⟨0, 0, 0, 0, 0, 0, 0⟩ (initState (fun _ => none)) String.length
      (fun _ => "") 512 ("Arkestra", "") "u1" "привет" "cli" "local" [] =
      .error "boom" :=
  rag_error_propagates_c3 demoCollab ⟨0, 0, 0, 0, 0, 0, 0⟩ (initState (fun _ => none))
    String.length (fun _ => "") 512 ("Arkestra", "") "u1" "привет" "cli" "local" []
    1 1 () [] "boom" rfl rfl rfl rfl (fun _ _ => rfl)

end Arkestra
